import Mathlib

/-!
Verification of the Redis Enterprise health-checkup collector (`src/main.py`).

The development shallowly embeds the pure core of the program:

* `parse_metrics` — the regex scan with the compiled pattern
  `metric_name\x7b.*?bdb="(\d+)",.*?\x7d\s+([\d.e+-]+)`
  followed by `findall` and the dict comprehension mapping each captured id
  to the float of its captured value
  (main.py lines 38-50).  The backtracking search of the concrete pattern is
  implemented directly: `findAllFuel` scans left to right for the literal
  `metric_name` followed by a brace, `phase1` realises the lazy gap before
  `bdb="<digits>",` (a `.` of the pattern never crosses a newline), and
  `phase2` realises the lazy gap before the closing brace, the `\s+` run and
  the greedy `[\d.e+-]+` value capture.
* `summarize_license` — the field extraction and shard-percentage derivation
  of `fetch_license_data` (lines 53-95), including the `:.2f` f-string at
  line 84 which raises on the `"N/A"` sentinel.
* `fetch_bdbs_data` — the inventory index `{str(bdb["uid"]): bdb ...}`
  (lines 98-106); a record without `uid` raises `KeyError`.
* `mkEntry`/`buildDatabases`/`runMain` — the per-database join and report
  of `main` (lines 121-182); the surrounding `try/except` is modelled by
  `runMain` returning `none` (nothing printed) whenever any step raises.

Python floats are modelled as exact rationals; Python `dict` as an
insertion-ordered association list (`dinsert` keeps the position of an
existing key, matching dict update semantics).  Logging output is not
modelled, but an exception raised while formatting a log message is.
-/

namespace REHealth

deriving instance DecidableEq for Except

/-- Whitespace characters matched by the regex class `\s` (ASCII range). -/
def isWsChar (c : Char) : Bool :=
  c = ' ' || c = '\t' || c = '\n' || c = '\r' || c = '\x0b' || c = '\x0c'

/-- Characters matched by the value capture class `[\d.e+-]`. -/
def isValChar (c : Char) : Bool :=
  c.isDigit || c = '.' || c = 'e' || c = '+' || c = '-'

/-- Match a literal character sequence at the head of the input, returning
the remainder on success. -/
def stripPre : List Char → List Char → Option (List Char)
  | [], l => some l
  | _ :: _, [] => none
  | p :: ps, c :: cs => if p = c then stripPre ps cs else none

/-- Match the pattern fragment `bdb="(\d+)",` at the head of the input:
the literal `bdb="`, a greedy nonempty digit run (capture group 1), then
the literal `",`.  Returns the captured digits and the remainder. -/
def bdbHead (l : List Char) : Option (List Char × List Char) :=
  match stripPre ("bdb=\"").data l with
  | none => none
  | some r =>
    let d := r.takeWhile Char.isDigit
    if d.isEmpty then none
    else
      match r.dropWhile Char.isDigit with
      | '"' :: ',' :: r2 => some (d, r2)
      | _ => none

/-- Realise `.*?\x7d\s+([\d.e+-]+)`: at each position first try to match the
closing brace followed by a nonempty `\s` run and a nonempty greedy value
token (capture group 2); on failure the lazy `.*?` consumes one character,
which must not be a newline.  Returns the captured value token and the
remainder after the whole match. -/
def phase2 : List Char → Option (List Char × List Char)
  | [] => none
  | c :: t =>
    if c = '\x7d' then
      if (t.takeWhile isWsChar).isEmpty then phase2 t
      else if ((t.dropWhile isWsChar).takeWhile isValChar).isEmpty then phase2 t
      else some ((t.dropWhile isWsChar).takeWhile isValChar,
                 (t.dropWhile isWsChar).dropWhile isValChar)
    else if c = '\n' then none else phase2 t

/-- Realise `.*?bdb="(\d+)",` followed by the rest of the pattern: at each
position first try `bdbHead` and, if it matches, the tail via `phase2`;
on failure the lazy `.*?` consumes one non-newline character.  Returns both
capture groups and the remainder after the whole match. -/
def phase1 : List Char → Option (List Char × List Char × List Char)
  | [] => none
  | c :: t =>
    match bdbHead (c :: t) with
    | some (d, r1) =>
      match phase2 r1 with
      | some (v, r2) => some (d, v, r2)
      | none => if c = '\n' then none else phase1 t
    | none => if c = '\n' then none else phase1 t

/-- `re.findall`: scan left to right; at each position try to match the whole
pattern (the literal metric name, `\x7b`, then `phase1`); on a match emit the
two capture groups and continue after the match, otherwise advance one
position.  `fuel` bounds the number of scan steps; every step strictly
shortens the input, so `fuel = input length` never runs out early. -/
def findAllFuel (name : List Char) : Nat → List Char → List (List Char × List Char)
  | 0, _ => []
  | _ + 1, [] => []
  | fuel + 1, c :: t =>
    match stripPre (name ++ [ '\x7b' ]) (c :: t) with
    | some r =>
      match phase1 r with
      | some (d, v, rest) => (d, v) :: findAllFuel name fuel rest
      | none => findAllFuel name fuel t
    | none => findAllFuel name fuel t

/-- All matches of the metric pattern for `name` in `data`. -/
def findAll (name data : List Char) : List (List Char × List Char) :=
  findAllFuel name data.length data

/-- Numeric value of a digit run. -/
def digitsVal (l : List Char) : Nat :=
  l.foldl (fun a c => a * 10 + (c.toNat - 48)) 0

/-- Optional leading sign of a Python numeric literal. -/
def pySign : List Char → Int × List Char
  | '+' :: t => (1, t)
  | '-' :: t => (-1, t)
  | l => (1, l)

/-- Exponent digits (with optional sign) after `e`/`E`; the whole remainder
must be consumed. -/
def expAfterE (l : List Char) : Option Int :=
  let (s, r) := pySign l
  let d := r.takeWhile Char.isDigit
  if d.isEmpty then none
  else if (r.dropWhile Char.isDigit).isEmpty then some (s * digitsVal d)
  else none

/-- Optional exponent part of a Python float literal. -/
def expPart : List Char → Option Int
  | [] => some 0
  | 'e' :: t => expAfterE t
  | 'E' :: t => expAfterE t
  | _ => none

/-- The exact rational `s * (ip + fp / 10 ^ fLen) * 10 ^ e` denoted by a float
literal with sign `s`, integer digits `ip`, fraction digits `fp` (of length
`fLen`) and exponent `e`.  It is assembled as a single `mkRat` fraction so
that the kernel can evaluate it (the rational operations of `ℚ` themselves
are irreducible). -/
def floatVal (s : Int) (ip fp fLen : Nat) (e : Int) : ℚ :=
  let m : Int := s * ((ip * 10 ^ fLen + fp : Nat) : Int)
  if 0 ≤ e then mkRat (m * ((10 ^ e.toNat : Nat) : Int)) (10 ^ fLen)
  else mkRat m (10 ^ fLen * 10 ^ (-e).toNat)

/-- Python `float(s)` on the tokens the value capture can produce, as an exact
rational: optional sign, digits with optional fraction (at least one digit),
optional `e`/`E` exponent.  `none` models `float` raising `ValueError`. -/
def pyFloat (l : List Char) : Option ℚ :=
  let (s, r) := pySign l
  let ip := r.takeWhile Char.isDigit
  match r.dropWhile Char.isDigit with
  | '.' :: r2 =>
    let fp := r2.takeWhile Char.isDigit
    if ip.isEmpty && fp.isEmpty then none
    else
      match expPart (r2.dropWhile Char.isDigit) with
      | some e => some (floatVal s (digitsVal ip) (digitsVal fp) fp.length e)
      | none => none
  | r1 =>
    if ip.isEmpty then none
    else
      match expPart r1 with
      | some e => some (floatVal s (digitsVal ip) 0 0 e)
      | none => none

/-- Python `dict` insertion: an existing key keeps its position and gets the
new value, a new key is appended. -/
def dinsert {α : Type} (m : List (String × α)) (k : String) (v : α) :
    List (String × α) :=
  if m.any (fun p => p.1 == k) then
    m.map (fun p => if p.1 == k then (k, v) else p)
  else m ++ [(k, v)]

/-- Python `dict.__contains__`/key lookup returning an optional value. -/
def dlookup {α : Type} (m : List (String × α)) (k : String) : Option α :=
  (m.find? (fun p => p.1 == k)).map Prod.snd

/-- Python `dict.get(k, d)`. -/
def dget (m : List (String × ℚ)) (k : String) (d : ℚ) : ℚ :=
  (dlookup m k).getD d

/-- One step of the dict comprehension `{db: float(value) for db, value in
matches}`: `float` on an unconvertible token raises `ValueError`. -/
def addSample (m : List (String × ℚ)) (p : List Char × List Char) :
    Except String (List (String × ℚ)) :=
  match pyFloat p.2 with
  | some q => Except.ok (dinsert m (String.mk p.1) q)
  | none => Except.error ("ValueError: could not convert string to float")

/-- `parse_metrics(data, metric_name)` (main.py lines 38-50): run the regex
scan and build the id-to-value dict; `Except.error` models an uncaught
exception escaping the function. -/
def parse_metrics (data metric_name : String) :
    Except String (List (String × ℚ)) :=
  (findAll metric_name.data data.data).foldlM addSample []

/-- The license JSON object, restricted to the fields the program reads.
`none` models an absent key (every `.get` default in the source). -/
structure LicenseJson where
  cluster_name : Option String
  activation_date : Option String
  expiration_date : Option String
  expired : Option Bool
  shards_limit : Option Int
  ram_shards_in_use : Option Int
  flash_shards_in_use : Option Int
deriving DecidableEq

/-- The dictionary returned by `fetch_license_data`.  `none` in `expired`
and `percentage_shards_used` stands for the string sentinel `"N/A"`. -/
structure LicenseSummary where
  cluster_name : String
  activation_date : String
  expiration_date : String
  expired : Option Bool
  shards_limit : Int
  ram_shards_in_use : Int
  flash_shards_in_use : Int
  percentage_shards_used : Option ℚ
deriving DecidableEq

/-- The f-string fragment `\x7bpercent_shards_used:.2f\x7d` at main.py line 84:
applying format spec `.2f` to the string `"N/A"` raises `ValueError`; on a
float it succeeds (the formatted text only goes to the log, which is not
modelled). -/
def formatDotTwoF : Option ℚ → Except String Unit
  | none => Except.error ("ValueError: Unknown format code f for object of type str")
  | some _ => Except.ok ()

/-- The pure part of `fetch_license_data` (main.py lines 62-95): field
extraction with defaults, the shard-percentage derivation guarded by
`shards_limit > 0`, and the logging line that formats the percentage
with `:.2f` before the dictionary is returned. -/
def summarize_license (j : LicenseJson) : Except String LicenseSummary :=
  let shards_limit := j.shards_limit.getD 0
  let ram := j.ram_shards_in_use.getD 0
  let flash := j.flash_shards_in_use.getD 0
  let total := ram + flash
  let pct : Option ℚ :=
    if shards_limit > 0 then some ((total : ℚ) / (shards_limit : ℚ) * 100) else none
  match formatDotTwoF pct with
  | Except.error e => Except.error e
  | Except.ok _ => Except.ok
      { cluster_name := j.cluster_name.getD ("N/A")
        activation_date := j.activation_date.getD ("N/A")
        expiration_date := j.expiration_date.getD ("N/A")
        expired := j.expired
        shards_limit := shards_limit
        ram_shards_in_use := ram
        flash_shards_in_use := flash
        percentage_shards_used := pct }

/-- One element of the JSON array returned by the bdbs endpoint, restricted
to the fields the program reads; `none` models an absent key. -/
structure BdbRecord where
  uid : Option Int
  name : Option String
  shards_count : Option Int
deriving DecidableEq

/-- One step of the comprehension `\x7bstr(bdb["uid"]): bdb ...\x7d`
(main.py line 106): the subscript `bdb["uid"]` raises `KeyError` when the
key is absent. -/
def bdbStep (acc : List (String × BdbRecord)) (b : BdbRecord) :
    Except String (List (String × BdbRecord)) :=
  match b.uid with
  | none => Except.error ("KeyError: uid")
  | some u => Except.ok (dinsert acc (toString u) b)

/-- `fetch_bdbs_data` after the fetch (main.py lines 98-106): index the
inventory records by the decimal string of their `uid`. -/
def fetch_bdbs_data (bdbs_data : List BdbRecord) :
    Except String (List (String × BdbRecord)) :=
  bdbs_data.foldlM bdbStep []

/-- One element of the `databases` list in the output JSON (main.py lines
163-171).  `none` in `bdb_name`/`shards_count` stands for `"N/A"`. -/
structure DatabaseReportEntry where
  database_id : String
  bdb_name : Option String
  shards_count : Option Int
  memory_used_mb : ℚ
  total_memory_mb : ℚ
  memory_usage_percentage : ℚ
  total_keys : Int
deriving DecidableEq

/-- Python `int()` on a float: truncation toward zero, i.e. the truncating
integer division of the numerator by the (positive) denominator. -/
def pyInt (q : ℚ) : Int := Int.tdiv q.num (q.den : Int)

/-- Round to the nearest integer, ties to even (Python `round` semantics).
`f` is the floor of `q` (Euclidean division works because the denominator is
positive) and `r2` is twice the numerator of the fractional part `q - f`, so
comparing `r2` with the denominator compares the fractional part with
`1 / 2`.  Written on `num`/`den` so that the kernel can evaluate it. -/
def roundHalfEven (q : Rat) : Int :=
  let f := Int.ediv q.num (q.den : Int)
  let r2 := 2 * (q.num - f * (q.den : Int))
  if r2 < (q.den : Int) then f
  else if (q.den : Int) < r2 then f + 1
  else if f % 2 = 0 then f else f + 1

/-- Python `round(x, 2)`. -/
def round2 (q : ℚ) : ℚ := (roundHalfEven (q * 100) : ℚ) / 100

/-- The body of the per-database loop of `main` (main.py lines 140-171) for
one entity id: inventory lookups default to `"N/A"`, `used_memory` and
`total_keys` lookups default to `0`, the `memory_limit` lookup defaults to
`1` (comment in source: avoid division by zero), and the percentage is
guarded by `memory_total_mb > 0` and rounded to two decimals. -/
def mkEntry (bdbs : List (String × BdbRecord)) (used mem keys : List (String × ℚ))
    (db_id : String) : DatabaseReportEntry :=
  let record := dlookup bdbs db_id
  let memory_used_mb := dget used db_id 0 / (1024 * 1024)
  let memory_total_mb := dget mem db_id 1 / (1024 * 1024)
  let percent := if memory_total_mb > 0 then memory_used_mb / memory_total_mb * 100 else 0
  { database_id := db_id
    bdb_name := record.bind (fun b => b.name)
    shards_count := record.bind (fun b => b.shards_count)
    memory_used_mb := memory_used_mb
    total_memory_mb := memory_total_mb
    memory_usage_percentage := round2 percent
    total_keys := pyInt (dget keys db_id 0) }

/-- The `databases` list: one entry per item of the `used_memory` dict, in
its iteration order (main.py line 140). -/
def buildDatabases (bdbs : List (String × BdbRecord)) (used mem keys : List (String × ℚ)) :
    List DatabaseReportEntry :=
  used.map (fun p => mkEntry bdbs used mem keys p.1)

/-- The output JSON document of one poll cycle (license fields flattened with
the `databases` list, main.py lines 174-177). -/
structure Report where
  license : LicenseSummary
  databases : List DatabaseReportEntry
deriving DecidableEq

/-- Whether an `Except` computation succeeded. -/
def exceptOk {ε α : Type} : Except ε α → Bool
  | Except.ok _ => true
  | Except.error _ => false

/-- `main` (main.py lines 121-182) as a function of the three fetch results.
The `try/except` wrapping the whole cycle means any raised exception is
logged and nothing is printed: `none` models "no JSON emitted on stdout",
`some r` models the `print(json.dumps(...))` of the complete report.
The steps appear in source order: license fetch and summary, bdbs fetch and
indexing, metrics fetch, the three `parse_metrics` calls, then the join. -/
def runMain (lf : Except String LicenseJson) (bf : Except String (List BdbRecord))
    (mf : Except String String) : Option Report :=
  match lf with
  | Except.error _ => none
  | Except.ok lj =>
    match summarize_license lj with
    | Except.error _ => none
    | Except.ok li =>
      match bf with
      | Except.error _ => none
      | Except.ok records =>
        match fetch_bdbs_data records with
        | Except.error _ => none
        | Except.ok bdbs =>
          match mf with
          | Except.error _ => none
          | Except.ok mt =>
            match parse_metrics mt ("bdb_used_memory"),
                  parse_metrics mt ("bdb_memory_limit"),
                  parse_metrics mt ("redis_db_keys") with
            | Except.ok used, Except.ok mem, Except.ok keys =>
              some { license := li, databases := buildDatabases bdbs used mem keys }
            | _, _, _ => none

/-! ## Helper lemmas about the pattern matcher -/

theorem stripPre_self (p l : List Char) : stripPre p (p ++ l) = some l := by
  induction p with
  | nil => rfl
  | cons c cs ih => simp [stripPre, ih]

theorem stripPre_nil_of_ne (p : List Char) (h : p ≠ []) : stripPre p [] = none := by
  cases p with
  | nil => exact absurd rfl h
  | cons c cs => rfl

theorem takeWhile_append_cons {α : Type} (p : α → Bool) (l1 : List α) (c : α)
    (l2 : List α) (h1 : ∀ x ∈ l1, p x = true) (hc : p c = false) :
    (l1 ++ c :: l2).takeWhile p = l1 ∧ (l1 ++ c :: l2).dropWhile p = c :: l2 := by
  induction l1 with
  | nil => simp [List.takeWhile_cons, List.dropWhile_cons, hc]
  | cons a as ih =>
    have ha := h1 a (List.mem_cons_self a as)
    have h' := ih (fun x hx => h1 x (List.mem_cons_of_mem a hx))
    simp [List.takeWhile_cons, List.dropWhile_cons, ha, h'.1, h'.2]

theorem takeWhile_all {α : Type} (p : α → Bool) (l : List α)
    (h : ∀ x ∈ l, p x = true) :
    l.takeWhile p = l ∧ l.dropWhile p = [] := by
  induction l with
  | nil => simp
  | cons a as ih =>
    have ha := h a (List.mem_cons_self a as)
    have h' := ih (fun x hx => h x (List.mem_cons_of_mem a hx))
    simp [List.takeWhile_cons, List.dropWhile_cons, ha, h'.1, h'.2]

theorem wsChar_not_val (c : Char) (h : isWsChar c = true) : isValChar c = false := by
  simp only [isWsChar, Bool.or_eq_true, decide_eq_true_eq] at h
  rcases h with ((((h | h) | h) | h) | h) | h <;> subst h <;> decide

theorem valChar_not_ws (c : Char) (h : isValChar c = true) : isWsChar c = false := by
  cases hw : isWsChar c with
  | false => rfl
  | true => rw [wsChar_not_val c hw] at h; cases h

/-- The `bdb="(\d+)",` fragment matches exactly at its literal occurrence. -/
theorem bdbHead_exact (D rest : List Char) (hD : D ≠ [])
    (hDall : ∀ c ∈ D, c.isDigit = true) :
    bdbHead (("bdb=\"").data ++ (D ++ '"' :: ',' :: rest)) = some (D, rest) := by
  cases D with
  | nil => exact absurd rfl hD
  | cons d0 D' =>
    have h := takeWhile_append_cons Char.isDigit (d0 :: D') '"' (',' :: rest) hDall (by decide)
    simp only [bdbHead, stripPre_self, h.1, h.2]
    simp

/-- The lazy gap of `phase1` skips any block in which the `bdb="(\d+)",`
fragment matches at no position (and which contains no newline). -/
theorem phase1_skip (pre l : List Char)
    (hb : ∀ i, i < pre.length → bdbHead ((pre ++ l).drop i) = none)
    (hn : '\n' ∉ pre) :
    phase1 (pre ++ l) = phase1 l := by
  induction pre with
  | nil => rfl
  | cons c cs ih =>
    have h0 : bdbHead (c :: (cs ++ l)) = none := by
      have h := hb 0 (Nat.succ_pos _)
      simpa using h
    have hc : ¬c = '\n' := fun h => hn (List.mem_cons.mpr (Or.inl h.symm))
    have ih' := ih (fun i hi => by
        have h := hb (i + 1) (by simpa using Nat.succ_lt_succ hi)
        simpa using h)
      (fun h => hn (List.mem_cons_of_mem c h))
    simpa [phase1, h0, hc] using ih'

/-- The lazy gap of `phase2` skips any block free of closing braces and
newlines. -/
theorem phase2_skip (post l : List Char) (h1 : '\x7d' ∉ post) (h2 : '\n' ∉ post) :
    phase2 (post ++ l) = phase2 l := by
  induction post with
  | nil => rfl
  | cons c cs ih =>
    have hc1 : ¬c = '\x7d' := fun h => h1 (List.mem_cons.mpr (Or.inl h.symm))
    have hc2 : ¬c = '\n' := fun h => h2 (List.mem_cons.mpr (Or.inl h.symm))
    have ih' := ih (fun h => h1 (List.mem_cons_of_mem c h))
      (fun h => h2 (List.mem_cons_of_mem c h))
    simpa [phase2, hc1, hc2] using ih'

/-- `phase2` succeeds at the closing brace followed by whitespace and a value
token that runs to the end of the input. -/
theorem phase2_close (W V : List Char) (hW : W ≠ [])
    (hWall : ∀ c ∈ W, isWsChar c = true)
    (hV : V ≠ []) (hVall : ∀ c ∈ V, isValChar c = true) :
    phase2 ('\x7d' :: (W ++ V)) = some (V, []) := by
  cases V with
  | nil => exact absurd rfl hV
  | cons v0 V' =>
    have hv0 : isWsChar v0 = false :=
      valChar_not_ws v0 (hVall v0 (List.mem_cons_self v0 V'))
    have hws := takeWhile_append_cons isWsChar W v0 V' hWall hv0
    have hval := takeWhile_all isValChar (v0 :: V') hVall
    simp [phase2, hws.1, hws.2, hval.1, hval.2, hW]

theorem phase1_hit (l d r1 v r2 : List Char) (hne : l ≠ [])
    (h1 : bdbHead l = some (d, r1)) (h2 : phase2 r1 = some (v, r2)) :
    phase1 l = some (d, v, r2) := by
  cases l with
  | nil => exact absurd rfl hne
  | cons c t => simp [phase1, h1, h2]

theorem findAllFuel_nil_input (name : List Char) (fuel : Nat) :
    findAllFuel name fuel [] = [] := by
  cases fuel <;> rfl

theorem findAllFuel_step_hit (name : List Char) (fuel : Nat) (l r d v rest : List Char)
    (hne : l ≠ []) (h1 : stripPre (name ++ [ '\x7b' ]) l = some r)
    (h2 : phase1 r = some (d, v, rest)) :
    findAllFuel name (fuel + 1) l = (d, v) :: findAllFuel name fuel rest := by
  cases l with
  | nil => exact absurd rfl hne
  | cons c t => simp [findAllFuel, h1, h2]

/-- If the literal `name` followed by a brace occurs at no position of the
input, the scan yields no matches. -/
theorem findAllFuel_no_hit (name : List Char) (fuel : Nat) (l : List Char)
    (h : ∀ i, i < l.length → stripPre (name ++ [ '\x7b' ]) (l.drop i) = none) :
    findAllFuel name fuel l = [] := by
  induction fuel generalizing l with
  | zero => rfl
  | succ fuel ih =>
    cases l with
    | nil => rfl
    | cons c t =>
      have h0 : stripPre (name ++ [ '\x7b' ]) (c :: t) = none := by
        have h' := h 0 (Nat.succ_pos _)
        simpa using h'
      have ih' := ih t (fun i hi => by
        have h' := h (i + 1) (by simpa using Nat.succ_lt_succ hi)
        simpa using h')
      simp [findAllFuel, h0, ih']

theorem round2_zero : round2 0 = 0 := by
  have h0 : roundHalfEven ((0 : ℚ) * 100) = 0 := by
    rw [zero_mul]
    decide
  unfold round2
  rw [h0]
  norm_num

/-! ## C1 -/

/-- C1 counterexample: a well-formed line whose `bdb` label is the last label
in the brace list, `m\x7bx="y",bdb="1"\x7d 5`, produces no sample at all:
the pattern requires a comma immediately after `bdb="1"`, so the claimed
mapping `"1" → 5.0` does not arise (the claim asserts the `bdb` label may
appear last). -/
theorem parse_bdb_last_label_unmatched :
    parse_metrics ("m\x7bx=\"y\",bdb=\"1\"\x7d 5") ("m") = Except.ok [] ∧
      (Except.ok [] : Except String (List (String × ℚ)))
        ≠ Except.ok [(("1" : String), (5 : ℚ))] := by
  constructor
  · rfl
  · simp

/-- C1 (amended): for every well-formed single-line text
`name\x7bpre bdb="D", post\x7d W V` in which the `bdb` label is followed by a
comma — it may appear first, between other labels, or before a trailing
comma, but not as the last label — `parse` maps `D` to `float(V)`,
regardless of the surrounding label content.  The side conditions state
well-formedness: the metric name is a plain identifier (the source
interpolates it into the regex unescaped), the label text before `bdb`
contains no newline and no earlier match of `bdb="<digits>",`, and the label
text after it contains no closing brace or newline. -/
theorem parse_maps_bdb_with_comma (name : String) (pre D post W V : List Char) (q : ℚ)
    (hname : ∀ c ∈ name.data, (c.isAlphanum || c = '_') = true)
    (hD : D ≠ []) (hDall : ∀ c ∈ D, c.isDigit = true)
    (hb : ∀ i, i < pre.length →
      bdbHead ((pre ++ (("bdb=\"").data ++
        (D ++ '"' :: ',' :: (post ++ '\x7d' :: (W ++ V))))).drop i) = none)
    (hpre : '\n' ∉ pre)
    (hpost1 : '\x7d' ∉ post) (hpost2 : '\n' ∉ post)
    (hW : W ≠ []) (hWall : ∀ c ∈ W, isWsChar c = true)
    (hV : V ≠ []) (hVall : ∀ c ∈ V, isValChar c = true)
    (hq : pyFloat V = some q) :
    parse_metrics (String.mk (name.data ++ '\x7b' ::
        (pre ++ (("bdb=\"").data ++ (D ++ '"' :: ',' :: (post ++ '\x7d' :: (W ++ V))))))) name
      = Except.ok [(String.mk D, q)] := by
  have _hname := hname
  set tail1 : List Char :=
    ("bdb=\"").data ++ (D ++ '"' :: ',' :: (post ++ '\x7d' :: (W ++ V))) with htail
  set L : List Char := name.data ++ '\x7b' :: (pre ++ tail1) with hL
  have hLne : L ≠ [] := by simp [hL]
  obtain ⟨n, hn⟩ : ∃ n, L.length = n + 1 := by
    cases hl : L with
    | nil => exact absurd hl hLne
    | cons a t => exact ⟨t.length, by simp [hl]⟩
  have hstrip : stripPre (name.data ++ [ '\x7b' ]) L = some (pre ++ tail1) := by
    have hsh : L = (name.data ++ [ '\x7b' ]) ++ (pre ++ tail1) := by simp [hL]
    rw [hsh, stripPre_self]
  have hbh : bdbHead tail1 = some (D, post ++ '\x7d' :: (W ++ V)) :=
    bdbHead_exact D (post ++ '\x7d' :: (W ++ V)) hD hDall
  have hp2 : phase2 (post ++ '\x7d' :: (W ++ V)) = some (V, []) := by
    rw [phase2_skip post ('\x7d' :: (W ++ V)) hpost1 hpost2]
    exact phase2_close W V hW hWall hV hVall
  have hphase1 : phase1 (pre ++ tail1) = some (D, V, []) := by
    rw [phase1_skip pre tail1 hb hpre]
    exact phase1_hit tail1 D (post ++ '\x7d' :: (W ++ V)) V [] (by simp [htail]) hbh hp2
  have hfind : findAll name.data L = [(D, V)] := by
    unfold findAll
    rw [hn, findAllFuel_step_hit name.data n L (pre ++ tail1) D V [] hLne hstrip hphase1,
      findAllFuel_nil_input]
  have hdm : (String.mk L).data = L := rfl
  unfold parse_metrics
  rw [hdm, hfind]
  simp [List.foldlM_cons, List.foldlM_nil, addSample, hq, dinsert, pure, Except.pure,
    Bind.bind, Except.bind]

/-- C1 witness: the amended theorem applied to the concrete line
`m\x7ba="p",bdb="1",x="y"\x7d 5`, with the `bdb` label between two other
labels. -/
theorem parse_maps_bdb_with_comma_witness :
    parse_metrics (String.mk (("m").data ++ '\x7b' ::
        (("a=\"p\",").data ++ (("bdb=\"").data ++
          ([ '1' ] ++ '"' :: ',' :: (("x=\"y\"").data ++ '\x7d' :: ([ ' ' ] ++ [ '5' ])))))) ) ("m")
      = Except.ok [(String.mk [ '1' ], (5 : ℚ))] :=
  parse_maps_bdb_with_comma ("m") (("a=\"p\",").data) [ '1' ] (("x=\"y\"").data)
    [ ' ' ] [ '5' ] 5 (by decide) (by decide) (by decide) (by decide) (by decide)
    (by decide) (by decide) (by decide) (by decide) (by decide) (by decide) (by decide)

/-! ## C2 -/

/-- C2 counterexample: parsing for family `bdb_used_memory`, the line whose
metric name is `some_prefix_bdb_used_memory` (the target name as a proper
suffix) does contribute a sample, because the compiled pattern is not
anchored at the start of the metric name; the claim asserts such a line
contributes nothing. -/
theorem parse_suffix_name_contributes :
    parse_metrics ("some_prefix_bdb_used_memory\x7bbdb=\"1\",x=\"y\"\x7d 5")
        ("bdb_used_memory")
      = Except.ok [(("1" : String), (5 : ℚ))] ∧
      (Except.ok [(("1" : String), (5 : ℚ))] : Except String (List (String × ℚ)))
        ≠ Except.ok [] := by
  constructor
  · decide
  · simp

/-- C2 (amended): the scan is a substring search, so a line whose metric name
merely ends with `name` does contribute; what holds is that `parse(text,
name)` yields nothing exactly when the literal `name` immediately followed by
an opening brace occurs at no position of the text (in particular for any
text whose lines all use metric names not containing `name\x7b`). -/
theorem parse_empty_without_name_brace (data name : String)
    (hname : ∀ c ∈ name.data, (c.isAlphanum || c = '_') = true)
    (h : ∀ i, i < data.data.length →
      stripPre (name.data ++ [ '\x7b' ]) (data.data.drop i) = none) :
    parse_metrics data name = Except.ok [] := by
  have _hname := hname
  unfold parse_metrics findAll
  rw [findAllFuel_no_hit name.data data.data.length data.data h]
  rfl

/-- C2 witness: the amended theorem applied to a text whose only line is for
the unrelated family `other_metric`. -/
theorem parse_empty_without_name_brace_witness :
    parse_metrics ("other_metric\x7bbdb=\"1\",\x7d 5") ("bdb_used_memory")
      = Except.ok [] :=
  parse_empty_without_name_brace ("other_metric\x7bbdb=\"1\",\x7d 5")
    ("bdb_used_memory") (by decide) (by decide)

/-! ## C3 -/

/-- C3 counterexample: the exact two-line text of the claim,
`m\x7bbdb="1"\x7d 5` then `m\x7bbdb="1"\x7d 7`, parses to the empty table,
not to `\x7b"1": 7.0\x7d`: without a comma after `bdb="1"` neither line
matches the compiled pattern. -/
theorem parse_duplicate_without_comma_empty :
    parse_metrics ("m\x7bbdb=\"1\"\x7d 5\nm\x7bbdb=\"1\"\x7d 7") ("m")
      = Except.ok [] ∧
      (Except.ok [] : Except String (List (String × ℚ)))
        ≠ Except.ok [(("1" : String), (7 : ℚ))] := by
  constructor
  · rfl
  · simp

/-- C3 (amended): with the comma the compiled pattern requires after the
`bdb` label, the last duplicate wins (overwrite, not accumulation):
parsing `m\x7bbdb="1",\x7d 5` followed by `m\x7bbdb="1",\x7d 7` for family
`m` yields exactly the single mapping `"1" → 7.0`. -/
theorem parse_last_duplicate_wins :
    parse_metrics ("m\x7bbdb=\"1\",\x7d 5\nm\x7bbdb=\"1\",\x7d 7") ("m")
      = Except.ok [(("1" : String), (7 : ℚ))] := by
  decide

/-! ## C4 -/

/-- C4 counterexample: on the line `m\x7bbdb="1",\x7d e` the value capture
class `[\d.e+-]` matches the bare token `e`, which `float` cannot convert,
so `parse` raises `ValueError` instead of silently excluding the line as the
claim asserts. -/
theorem parse_raises_on_bare_e :
    parse_metrics ("m\x7bbdb=\"1\",\x7d e") ("m")
      = Except.error ("ValueError: could not convert string to float") := by
  rfl

/-- C4 (amended): `parse` never raises provided every value token the scan
captures is a valid float literal — lines whose value contains a character
outside `[\d.e+-]` are merely skipped by the scan, and empty input always
yields the empty table; but a captured token made only of those characters
that is not a valid float (such as a bare `e`) raises `ValueError` and
aborts the whole parse. -/
theorem parse_ok_of_valid_values (data name : String)
    (hname : ∀ c ∈ name.data, (c.isAlphanum || c = '_') = true)
    (h : ∀ p ∈ findAll name.data data.data, (pyFloat p.2).isSome = true) :
    exceptOk (parse_metrics data name) = true ∧
      parse_metrics ("") name = Except.ok [] := by
  have _hname := hname
  constructor
  · unfold parse_metrics
    have haux : ∀ (l : List (List Char × List Char)) (acc : List (String × ℚ)),
        (∀ p ∈ l, (pyFloat p.2).isSome = true) →
        exceptOk (l.foldlM addSample acc) = true := by
      intro l
      induction l with
      | nil => intro acc _; rfl
      | cons x xs ih =>
        intro acc hall
        obtain ⟨q, hq⟩ : ∃ q, pyFloat x.2 = some q := by
          have hx := hall x (List.mem_cons_self x xs)
          cases hpf : pyFloat x.2 with
          | none => rw [hpf] at hx; cases hx
          | some q => exact ⟨q, rfl⟩
        rw [List.foldlM_cons]
        have hstep : addSample acc x = Except.ok (dinsert acc (String.mk x.1) q) := by
          simp [addSample, hq]
        rw [hstep]
        exact ih (dinsert acc (String.mk x.1) q)
          (fun p hp => hall p (List.mem_cons_of_mem x hp))
    exact haux (findAll name.data data.data) [] h
  · rfl

/-- C4 witness: the amended theorem applied to a two-line text whose captured
values `3.5e-2` and `7` are both valid floats. -/
theorem parse_ok_of_valid_values_witness :
    exceptOk (parse_metrics ("m\x7bbdb=\"1\",\x7d 3.5e-2\nm\x7bbdb=\"2\",\x7d 7") ("m"))
        = true ∧
      parse_metrics ("") ("m") = Except.ok [] :=
  parse_ok_of_valid_values ("m\x7bbdb=\"1\",\x7d 3.5e-2\nm\x7bbdb=\"2\",\x7d 7") ("m")
    (by decide) (by decide)

/-! ## C5 -/

/-- C5: every `DatabaseReportEntry` in a built report carries a
`database_id` that is a key of the used-memory table — the loop iterates
`used_memory.items()`, so an id present only in `memory_limit`,
`total_keys` or the inventory never appears in `databases`. -/
theorem report_ids_from_used_memory (bdbs : List (String × BdbRecord))
    (used mem keys : List (String × ℚ)) (e : DatabaseReportEntry)
    (he : e ∈ buildDatabases bdbs used mem keys) :
    e.database_id ∈ used.map Prod.fst := by
  obtain ⟨p, hp, rfl⟩ := List.mem_map.mp he
  show p.1 ∈ used.map Prod.fst
  exact List.mem_map_of_mem Prod.fst hp

/-- C5 witness: the invariant applied to the report built from the
single-key used-memory table `\x7b"1": 5\x7d`. -/
theorem report_ids_from_used_memory_witness :
    (mkEntry [] [(("1" : String), (5 : ℚ))] [] [] ("1")).database_id
      ∈ ([(("1" : String), (5 : ℚ))].map Prod.fst) :=
  report_ids_from_used_memory [] [(("1" : String), (5 : ℚ))] [] [] _
    (by simp [buildDatabases])

/-! ## C6 -/

/-- C6: for an entity absent from the memory-limit table the entry's
`total_memory_mb` is `1 / 1048576` (the default-on-miss for `memory_limit`
is `1` byte), and every entry's `memory_usage_percentage` is
`memory_used_mb / total_memory_mb * 100` rounded to two decimals when
`total_memory_mb` is strictly positive, and `0` otherwise. -/
theorem default_limit_and_percentage (bdbs : List (String × BdbRecord))
    (used mem keys : List (String × ℚ)) (e : DatabaseReportEntry)
    (he : e ∈ buildDatabases bdbs used mem keys) :
    (dlookup mem e.database_id = none → e.total_memory_mb = 1 / 1048576) ∧
      e.memory_usage_percentage =
        (if 0 < e.total_memory_mb then
          round2 (e.memory_used_mb / e.total_memory_mb * 100) else 0) := by
  obtain ⟨p, hp, rfl⟩ := List.mem_map.mp he
  constructor
  · intro hnone
    show dget mem p.1 1 / (1024 * 1024) = 1 / 1048576
    have hid : (mkEntry bdbs used mem keys p.1).database_id = p.1 := rfl
    rw [hid] at hnone
    have h1 : dget mem p.1 1 = 1 := by simp [dget, hnone]
    rw [h1]
    norm_num
  · have hT : (mkEntry bdbs used mem keys p.1).total_memory_mb
        = dget mem p.1 1 / (1024 * 1024) := rfl
    have hU : (mkEntry bdbs used mem keys p.1).memory_used_mb
        = dget used p.1 0 / (1024 * 1024) := rfl
    have hP : (mkEntry bdbs used mem keys p.1).memory_usage_percentage
        = round2 (if dget mem p.1 1 / (1024 * 1024) > 0 then
            dget used p.1 0 / (1024 * 1024) / (dget mem p.1 1 / (1024 * 1024)) * 100
          else 0) := rfl
    rw [hP, hT, hU]
    by_cases hpos : (0 : ℚ) < dget mem p.1 1 / (1024 * 1024)
    · rw [if_pos hpos, if_pos hpos]
    · rw [if_neg hpos, if_neg hpos]
      exact round2_zero

/-- C6 witness: the theorem applied to an entity present in used-memory but
absent from the memory-limit table. -/
theorem default_limit_and_percentage_witness :
    (mkEntry [] [(("1" : String), (5 : ℚ))] [] [] ("1")).total_memory_mb = 1 / 1048576 ∧
      (mkEntry [] [(("1" : String), (5 : ℚ))] [] [] ("1")).memory_usage_percentage =
        (if 0 < (mkEntry [] [(("1" : String), (5 : ℚ))] [] [] ("1")).total_memory_mb then
          round2 ((mkEntry [] [(("1" : String), (5 : ℚ))] [] [] ("1")).memory_used_mb /
            (mkEntry [] [(("1" : String), (5 : ℚ))] [] [] ("1")).total_memory_mb * 100)
        else 0) := by
  have h := default_limit_and_percentage [] [(("1" : String), (5 : ℚ))] [] []
    (mkEntry [] [(("1" : String), (5 : ℚ))] [] [] ("1")) (by simp [buildDatabases])
  exact ⟨h.1 rfl, h.2⟩

/-! ## C7 -/

/-- C7: the end-to-end single-database example — used-memory 52428800 bytes,
memory-limit 104857600 bytes, 1000 keys, inventory record
`\x7buid: 1, name: "mydb", shards_count: 2\x7d` — produces exactly one entry
with 50 MB used of 100 MB total, 50 percent usage and 1000 keys. -/
theorem end_to_end_single_db :
    fetch_bdbs_data [{ uid := some 1, name := some ("mydb"), shards_count := some 2 }]
      = Except.ok [(("1" : String),
          { uid := some 1, name := some ("mydb"), shards_count := some 2 })] ∧
      buildDatabases
          [(("1" : String),
            ({ uid := some 1, name := some ("mydb"), shards_count := some 2 } : BdbRecord))]
          [(("1" : String), (52428800 : ℚ))] [(("1" : String), (104857600 : ℚ))]
          [(("1" : String), (1000 : ℚ))]
      = [{ database_id := "1", bdb_name := some ("mydb"), shards_count := some 2,
           memory_used_mb := 50, total_memory_mb := 100,
           memory_usage_percentage := 50, total_keys := 1000 }] := by
  constructor
  · decide
  · have hu : dget [(("1" : String), (52428800 : ℚ))] ("1") 0 = 52428800 := by decide
    have hm : dget [(("1" : String), (104857600 : ℚ))] ("1") 1 = 104857600 := by decide
    have hk : dget [(("1" : String), (1000 : ℚ))] ("1") 0 = 1000 := by decide
    have hrec : dlookup [(("1" : String),
          ({ uid := some 1, name := some ("mydb"), shards_count := some 2 } : BdbRecord))] ("1")
        = some { uid := some 1, name := some ("mydb"), shards_count := some 2 } := by decide
    have h1 : (52428800 : ℚ) / (1024 * 1024) = 50 := by norm_num
    have h2 : (104857600 : ℚ) / (1024 * 1024) = 100 := by norm_num
    have h3 : (50 : ℚ) / 100 * 100 = 50 := by norm_num
    have h4 : round2 50 = 50 := by
      have h50 : ((50 : ℚ) * 100) = 5000 := by norm_num
      have h5000 : roundHalfEven ((50 : ℚ) * 100) = 5000 := by rw [h50]; decide
      unfold round2
      rw [h5000]
      norm_num
    have h5 : pyInt 1000 = 1000 := by decide
    have hpos : ((100 : ℚ) > 0) := by norm_num
    simp only [buildDatabases, List.map_cons, List.map_nil, mkEntry, hu, hm, hk, hrec,
      h1, h2, if_pos hpos, h3, h4, h5, Option.bind]

/-! ## C8 -/

/-- C8: summarizing the empty license object.  The extraction defaults every
string field to `"N/A"` and every numeric field to `0`, and with
`shards_limit = 0` the percentage becomes the `"N/A"` sentinel — but the
function then raises `ValueError` while logging, because line 84 formats
`percent_shards_used` with the float format spec `:.2f` and the value is the
string `"N/A"`.  The claim that the summarizer returns without raising is
contradicted at this input (the division guard itself is intact: the
`shards_limit > 0` branch is the only place a quotient is formed). -/
theorem summarize_empty_license_raises :
    summarize_license
        { cluster_name := none, activation_date := none, expiration_date := none,
          expired := none, shards_limit := none, ram_shards_in_use := none,
          flash_shards_in_use := none }
      = Except.error ("ValueError: Unknown format code f for object of type str") := by
  rfl

/-! ## C9 -/

/-- C9: if any of the three fetches fails, the poll cycle emits no report:
`runMain` returns `none` (nothing is printed to stdout) whenever the license
fetch, the bdbs fetch or the metrics fetch is an error. -/
theorem fetch_failure_no_report (lf : Except String LicenseJson)
    (bf : Except String (List BdbRecord)) (mf : Except String String)
    (h : exceptOk lf = false ∨ exceptOk bf = false ∨ exceptOk mf = false) :
    runMain lf bf mf = none := by
  rcases h with h | h | h
  · cases lf with
    | error e => rfl
    | ok lj => simp [exceptOk] at h
  · cases lf with
    | error e => rfl
    | ok lj =>
      cases bf with
      | error e =>
        cases hs : summarize_license lj with
        | error e2 => simp [runMain, hs]
        | ok li => simp [runMain, hs]
      | ok records => simp [exceptOk] at h
  · cases lf with
    | error e => rfl
    | ok lj =>
      cases mf with
      | error e =>
        cases hs : summarize_license lj with
        | error e2 => simp [runMain, hs]
        | ok li =>
          cases bf with
          | error e2 => simp [runMain, hs]
          | ok records =>
            cases hf : fetch_bdbs_data records with
            | error e2 => simp [runMain, hs, hf]
            | ok bdbs => simp [runMain, hs, hf]
      | ok mt => simp [exceptOk] at h

/-- C9 witness: a failed license fetch produces no report. -/
theorem fetch_failure_no_report_witness :
    runMain (Except.error ("connection refused")) (Except.ok []) (Except.ok (""))
      = none :=
  fetch_failure_no_report (Except.error ("connection refused")) (Except.ok [])
    (Except.ok ("")) (Or.inl rfl)

/-! ## C10 -/

theorem fetch_bdbs_foldl_error (records : List BdbRecord) (r : BdbRecord)
    (hr : r ∈ records) (hu : r.uid = none) :
    ∀ acc, exceptOk (records.foldlM bdbStep acc) = false := by
  induction records with
  | nil => cases hr
  | cons x xs ih =>
    intro acc
    rw [List.foldlM_cons]
    rcases List.mem_cons.mp hr with hx | hx
    · subst hx
      rw [show bdbStep acc r = Except.error ("KeyError: uid") by simp [bdbStep, hu]]
      rfl
    · cases hxu : x.uid with
      | none =>
        rw [show bdbStep acc x = Except.error ("KeyError: uid") by simp [bdbStep, hxu]]
        rfl
      | some u =>
        rw [show bdbStep acc x = Except.ok (dinsert acc (toString u) x) by
          simp [bdbStep, hxu]]
        exact ih hx (dinsert acc (toString u) x)

/-- C10: an inventory record without a `uid` field makes the index
comprehension raise `KeyError`, which aborts the whole poll cycle: the
bdbs-indexing step fails and `runMain` emits no report, whatever the other
two fetches returned. -/
theorem missing_uid_aborts_cycle (records : List BdbRecord) (r : BdbRecord)
    (hr : r ∈ records) (hu : r.uid = none) :
    exceptOk (fetch_bdbs_data records) = false ∧
      ∀ (lf : Except String LicenseJson) (mf : Except String String),
        runMain lf (Except.ok records) mf = none := by
  have hfb := fetch_bdbs_foldl_error records r hr hu []
  refine ⟨hfb, ?_⟩
  intro lf mf
  cases lf with
  | error e => rfl
  | ok lj =>
    cases hs : summarize_license lj with
    | error e => simp [runMain, hs]
    | ok li =>
      cases hf : fetch_bdbs_data records with
      | error e => simp [runMain, hs, hf]
      | ok bdbs =>
        rw [show fetch_bdbs_data records = records.foldlM bdbStep [] from rfl] at hf
        rw [hf] at hfb
        simp [exceptOk] at hfb

/-- C10 witness: the theorem applied to an inventory holding a single record
without `uid`, with a successful license fetch and an empty metrics body. -/
theorem missing_uid_aborts_cycle_witness :
    exceptOk (fetch_bdbs_data [{ uid := none, name := some ("db0"), shards_count := some 1 }])
        = false ∧
      runMain
        (Except.ok ⟨some ("c"), none, none, none, some 5, some 1, some 0⟩)
        (Except.ok [{ uid := none, name := some ("db0"), shards_count := some 1 }])
        (Except.ok ("")) = none := by
  have h := missing_uid_aborts_cycle
    [{ uid := none, name := some ("db0"), shards_count := some 1 }]
    { uid := none, name := some ("db0"), shards_count := some 1 }
    (List.mem_singleton.mpr rfl) rfl
  exact ⟨h.1, h.2 _ _⟩

end REHealth
